import Mathlib

/-!
Shallow embedding of the rustlearn random-forest ensemble engine
(`src/ensemble/random_forest.rs`) together with the external interfaces it
consumes (random streams, the matrix abstraction and the base-learner
contract, which live outside the given sources and are modelled from the
spec at interface level).  Rust `f32` scores are carried as exact
rationals; Rust aborts (panics) are modelled as `none`.
-/

/-- Modelled from the spec: a deterministic random stream (Rust `StdRng`
wrapped in `EncodableRng`; its implementation is external to the given
sources).  The stream is an infinite entropy source together with a read
position; one draw reads the entropy at the position and advances it.
Cloning copies both fields, giving an independent working copy
(spec sections 3 and 9, master/sampling/per-learner streams and
advance-and-commit). -/
structure Rng where
  stream : Nat → Nat
  pos : Nat

/-- Modelled from the spec: one uniform draw from the half-open range
`[low, high)`; the drawn value lies in `[low, high)` whenever the range is
non-empty, and the stream advances by exactly one position. -/
def Rng.sample (r : Rng) (low high : Nat) : Nat × Rng :=
  (low + r.stream r.pos % (high - low), { r with pos := r.pos + 1 })

/-- Modelled from the spec: rand's `Uniform::new(low, high)`, a half-open
uniform range.  Constructing it aborts when `low >= high` (spec section
4.5: sampling fails on an empty population); the abort is modelled as
`none`. -/
def uniformNew (low high : Nat) : Option (Nat × Nat) :=
  if low < high then some (low, high) else none

/-- Drawing `n` successive uniform samples from `[low, high)`, threading the
stream. -/
def sampleList (low high : Nat) : Nat → Rng → List Nat × Rng
  | 0, r => ([], r)
  | n + 1, r =>
    let (v, r1) := r.sample low high
    let (vs, r2) := sampleList low high n r1
    (v :: vs, r2)

/-- Rust `RandomForest::bootstrap_indices` (random_forest.rs lines 175-181):
build `Uniform::new(0, num_indices - 1)` and draw `num_indices` samples
from it.  `num_indices - 1` is `usize` arithmetic: at `num_indices = 0` the
subtraction underflows (an abort in a debug build; in a release build the
wrapped bound makes every draw out of range, so the subsequent row
extraction aborts), and at `num_indices = 1` the empty range `[0, 0)` makes
`Uniform::new` abort.  Both aborts are modelled as `none`. -/
def bootstrap_indices (num_indices : Nat) (rng : Rng) : Option (List Nat × Rng) :=
  if num_indices = 0 then none
  else
    match uniformNew 0 (num_indices - 1) with
    | none => none
    | some (low, high) => some (sampleList low high num_indices rng)

/-- Modelled from the spec: the dense matrix abstraction (Rust `Array`;
its implementation is external to the given sources).  A matrix is its
list of rows, each row a list of entries; scores are exact rationals in
place of `f32` (spec section 6, matrix abstraction contract). -/
structure DenseArray where
  data : List (List ℚ)

/-- Modelled from the spec: `rows()` is the row count. -/
def DenseArray.rows (X : DenseArray) : Nat :=
  X.data.length

/-- Modelled from the spec: `get_rows(indices)` restricts the matrix to the
given row indices, in order (spec section 6).  An out-of-range index is an
abort in Rust; the embedding yields an empty row there, and every claim
only reaches in-range indices. -/
def DenseArray.get_rows (X : DenseArray) (indices : List Nat) : DenseArray :=
  ⟨indices.map fun i => X.data.getD i []⟩

/-- Modelled from the spec: `zeros(rows, cols)`, a zero-filled matrix. -/
def DenseArray.zeros (r c : Nat) : DenseArray :=
  ⟨List.replicate r (List.replicate c 0)⟩

/-- Modelled from the spec: `add_inplace(other)`, elementwise addition. -/
def DenseArray.add_inplace (X Y : DenseArray) : DenseArray :=
  ⟨List.zipWith (List.zipWith (· + ·)) X.data Y.data⟩

/-- Modelled from the spec: `div_inplace(scalar)`, elementwise division. -/
def DenseArray.div_inplace (X : DenseArray) (s : ℚ) : DenseArray :=
  ⟨X.data.map fun row => row.map (· / s)⟩

/-- Modelled from the spec: the row-oriented sparse matrix (Rust
`SparseRowArray`, external to the given sources), identified by its
logical row content. -/
structure SparseRowArray where
  data : List (List ℚ)

/-- Modelled from the spec: `rows()` of a sparse row matrix. -/
def SparseRowArray.rows (X : SparseRowArray) : Nat :=
  X.data.length

/-- Modelled from the spec: `get_rows(indices)` on a sparse row matrix. -/
def SparseRowArray.get_rows (X : SparseRowArray) (indices : List Nat) : SparseRowArray :=
  ⟨indices.map fun i => X.data.getD i []⟩

/-- Modelled from the spec: the column-oriented sparse matrix (Rust
`SparseColumnArray`, external to the given sources). -/
structure SparseColumnArray where
  data : List (List ℚ)

/-- Modelled from the spec: `SparseColumnArray::from(&SparseRowArray)`, the
representation conversion; it preserves the logical content (spec section
6). -/
def SparseColumnArray.fromRows (X : SparseRowArray) : SparseColumnArray :=
  ⟨X.data⟩

/-- Modelled from the spec: the base learner's hyperparameters are opaque,
clonable and reseedable with a fixed-size 32-byte seed (spec section 6);
`params` is the opaque payload and `seed` the installed seed. -/
structure TreeHyperparameters where
  params : Nat
  seed : List Nat

/-- Modelled from the spec: `hyperparams.rng(SeedableRng::from_seed(seed))`,
installing a fresh seed. -/
def TreeHyperparameters.setSeed (hp : TreeHyperparameters) (s : List Nat) : TreeHyperparameters :=
  { hp with seed := s }

/-- Modelled from the spec: a base learner (Rust `DecisionTree`, external to
the given sources): its hyperparameters, holding its private reseeded
stream, and its trained parameters once fit (`none` while untrained). -/
structure DecisionTree where
  hyperparameters : TreeHyperparameters
  trained : Option (List ℚ)

/-- Modelled from the spec: `hyperparams.build()` materializes an untrained
learner from hyperparameters. -/
def TreeHyperparameters.build (hp : TreeHyperparameters) : DecisionTree :=
  ⟨hp, none⟩

/-- Modelled from the spec: one concrete behaviour of the external
base-learner contract (spec section 6): in-place `fit(matrix, target)`
yields the mutated learner plus an optional failure, and
`decision_function(matrix)` yields a score matrix or a failure; the tree
consumes a dense matrix or a column-oriented sparse matrix.  The forest
operations are parametric in this behaviour, so the theorems hold for
every base learner satisfying the contract shape. -/
structure TreeModel where
  fitTree : DecisionTree → DenseArray → DenseArray → DecisionTree × Option String
  fitTreeSparse : DecisionTree → SparseColumnArray → DenseArray → DecisionTree × Option String
  dfTree : DecisionTree → DenseArray → Except String DenseArray
  dfTreeSparse : DecisionTree → SparseColumnArray → Except String DenseArray

/-- Rust `ensemble::random_forest::Hyperparameters` (random_forest.rs lines
44-49): the base-learner hyperparameters, the forest size and the master
random stream. -/
structure Hyperparameters where
  tree_hyperparameters : TreeHyperparameters
  num_trees : Nat
  rng : Rng

/-- The 32-byte per-learner seed draw inside `Hyperparameters::build`
(random_forest.rs lines 80-86): 32 successive samples from
`Uniform::new(0, u8::MAX)`, that is from `[0, 255)`. -/
def drawSeed (rng : Rng) : List Nat × Rng :=
  sampleList 0 255 32 rng

/-- The per-learner loop of `Hyperparameters::build` (random_forest.rs
lines 77-90): for each of `n` learners, draw a 32-byte seed from the
working stream, install it on a clone of the tree hyperparameters and
materialize an untrained learner. -/
def buildTrees (hp : TreeHyperparameters) : Nat → Rng → List DecisionTree × Rng
  | 0, rng => ([], rng)
  | n + 1, rng =>
    let (seed, rng1) := drawSeed rng
    let (rest, rng2) := buildTrees hp n rng1
    ((hp.setSeed seed).build :: rest, rng2)

/-- Rust `ensemble::random_forest::RandomForest` (random_forest.rs lines
106-110): the owned learner sequence and the sampling random stream. -/
structure RandomForest where
  trees : List DecisionTree
  rng : Rng

/-- Rust `Hyperparameters::build` (random_forest.rs lines 72-96): the per-learner
seeds are drawn from a clone of the master stream (`self.rng.clone()`), and
the returned forest's own sampling stream is another clone of the master
stream in its unaltered state (`rng: self.rng.clone()`). -/
def Hyperparameters.build (h : Hyperparameters) : RandomForest :=
  { trees := (buildTrees h.tree_hyperparameters h.num_trees h.rng).1,
    rng := h.rng }

/-- The seed the i-th learner receives when seeds are drawn one after
another from a stream: seed `i` is read after the 32 draws of each of the
seeds `0 .. i-1`. -/
def nthSeed (rng : Rng) : Nat → List Nat
  | 0 => (drawSeed rng).1
  | i + 1 => nthSeed (drawSeed rng).2 i

/-- One iteration of the dense `fit` loop body (random_forest.rs lines
116-119) for a single tree: draw a bootstrap index set for `X.rows()` rows
from the working stream, then train the tree in place on the resampled
rows of `X` and `y`.  `none` is an abort inside `bootstrap_indices`. -/
def fitStep (tm : TreeModel) (X y : DenseArray) (t : DecisionTree) (rng : Rng) :
    Option (DecisionTree × Rng × Option String) :=
  match bootstrap_indices X.rows rng with
  | none => none
  | some (indices, rng1) =>
    let (t1, e) := tm.fitTree t (X.get_rows indices) (y.get_rows indices)
    some (t1, rng1, e)

/-- One iteration of the sparse `fit` loop body (random_forest.rs lines
143-147): draw a bootstrap index set, convert the resampled rows to the
column-oriented representation, then train the tree in place. -/
def fitStepSparse (tm : TreeModel) (X : SparseRowArray) (y : DenseArray)
    (t : DecisionTree) (rng : Rng) : Option (DecisionTree × Rng × Option String) :=
  match bootstrap_indices X.rows rng with
  | none => none
  | some (indices, rng1) =>
    let (t1, e) := tm.fitTreeSparse t (SparseColumnArray.fromRows (X.get_rows indices))
      (y.get_rows indices)
    some (t1, rng1, e)

/-- The per-learner `fit` loop (`for tree in &mut self.trees`): run the step
on each tree in sequence order, threading the working stream, and stop at
the first failing tree (the `?` operator), leaving the trees after it
untouched.  Yields the updated tree list, the working stream after the
draws actually made, and the first failure if any; `none` is an abort. -/
def fitLoopG (step : DecisionTree → Rng → Option (DecisionTree × Rng × Option String)) :
    List DecisionTree → Rng → Option (List DecisionTree × Rng × Option String)
  | [], rng => some ([], rng, none)
  | t :: ts, rng =>
    match step t rng with
    | none => none
    | some (t1, rng1, some e) => some (t1 :: ts, rng1, some e)
    | some (t1, rng1, none) =>
      match fitLoopG step ts rng1 with
      | none => none
      | some (ts1, rng2, res) => some (t1 :: ts1, rng2, res)

/-- Dense `RandomForest::fit` (random_forest.rs lines 113-124): clone the
sampling stream into a working copy, run the per-learner loop, and commit
the advanced working copy back into the forest (`self.rng = rng`) only when
every learner trained; a learner failure is returned as the forest's own
error with the sampling stream left exactly as it was.  The result pairs
the post-state of the forest with the returned `Result`; `none` is an abort
(no observable post-state). -/
def RandomForest.fit (tm : TreeModel) (f : RandomForest) (X y : DenseArray) :
    Option (RandomForest × Except String Unit) :=
  match fitLoopG (fitStep tm X y) f.trees f.rng with
  | none => none
  | some (trees1, rng1, none) => some ({ trees := trees1, rng := rng1 }, Except.ok ())
  | some (trees1, _, some e) => some ({ trees := trees1, rng := f.rng }, Except.error e)

/-- Sparse `RandomForest::fit` (random_forest.rs lines 140-152), with the
same advance-and-commit structure as the dense path. -/
def RandomForest.fitSparse (tm : TreeModel) (f : RandomForest) (X : SparseRowArray)
    (y : DenseArray) : Option (RandomForest × Except String Unit) :=
  match fitLoopG (fitStepSparse tm X y) f.trees f.rng with
  | none => none
  | some (trees1, rng1, none) => some ({ trees := trees1, rng := rng1 }, Except.ok ())
  | some (trees1, _, some e) => some ({ trees := trees1, rng := f.rng }, Except.error e)

/-- The accumulation loop of `decision_function` (random_forest.rs lines
129-131 and 159-161): add each tree's score into the buffer in tree order
(`df.add_inplace(&tree.decision_function(..)?)`), aborting the whole call
at the first failing tree. -/
def dfLoopG (g : DecisionTree → Except String DenseArray) :
    List DecisionTree → DenseArray → Except String DenseArray
  | [], acc => Except.ok acc
  | t :: ts, acc =>
    match g t with
    | Except.error e => Except.error e
    | Except.ok s => dfLoopG g ts (acc.add_inplace s)

/-- Dense `RandomForest::decision_function` (random_forest.rs lines
126-136): allocate a `(rows x 1)` zero buffer, accumulate each tree's score
in place in tree order, then divide by the learner count.  The receiver is
Rust `&self`: the embedding returns only the score matrix, reflecting that
the forest (learners and sampling stream) is not mutated. -/
def RandomForest.decision_function (tm : TreeModel) (f : RandomForest) (X : DenseArray) :
    Except String DenseArray :=
  match dfLoopG (fun t => tm.dfTree t X) f.trees (DenseArray.zeros X.rows 1) with
  | Except.error e => Except.error e
  | Except.ok df => Except.ok (df.div_inplace (f.trees.length : ℚ))

/-- Sparse `RandomForest::decision_function` (random_forest.rs lines
154-166): convert the input once to column orientation, shared across all
learners, then accumulate and divide as in the dense path. -/
def RandomForest.decision_functionSparse (tm : TreeModel) (f : RandomForest)
    (X : SparseRowArray) : Except String DenseArray :=
  match dfLoopG (fun t => tm.dfTreeSparse t (SparseColumnArray.fromRows X)) f.trees
    (DenseArray.zeros X.rows 1) with
  | Except.error e => Except.error e
  | Except.ok df => Except.ok (df.div_inplace (f.trees.length : ℚ))

/-- Stated from the spec for comparison: the elementwise mean of a list of
`(rows x 1)` score matrices — their pointwise sum over a zero buffer,
divided by their count (spec sections 4.3 and 8, "Aggregation
correctness" and "simple unweighted mean aggregation"). -/
def elementwiseMean (rows : Nat) (scores : List DenseArray) : DenseArray :=
  (scores.foldl DenseArray.add_inplace (DenseArray.zeros rows 1)).div_inplace
    (scores.length : ℚ)

/-- A `(rows x 1)` column score matrix: exactly `rows` rows of one entry
each. -/
def IsColumn (rows : Nat) (M : DenseArray) : Prop :=
  M.data.length = rows ∧ ∀ row ∈ M.data, row.length = 1

/-- A concrete stream: constant zero entropy at position zero. -/
def cRng : Rng :=
  ⟨fun _ => 0, 0⟩

/-- A concrete stream advanced by three draws. -/
def cRng3 : Rng :=
  ⟨fun _ => 0, 3⟩

/-- Concrete tree hyperparameters. -/
def cTHP : TreeHyperparameters :=
  ⟨0, []⟩

/-- A concrete untrained learner. -/
def cTree : DecisionTree :=
  cTHP.build

/-- A concrete base-learner behaviour on which every operation succeeds:
fitting records empty trained parameters and the decision function is the
zero column over the input's rows. -/
def cTm : TreeModel where
  fitTree := fun t _ _ => ({ t with trained := some [] }, none)
  fitTreeSparse := fun t _ _ => ({ t with trained := some [] }, none)
  dfTree := fun _ X => Except.ok (DenseArray.zeros X.rows 1)
  dfTreeSparse := fun _ x => Except.ok (DenseArray.zeros x.data.length 1)

/-- A concrete static failure message. -/
def cErr : String :=
  "tree fit failed"

/-- A concrete base-learner behaviour on which every training call fails
without mutating the learner. -/
def cTmFail : TreeModel where
  fitTree := fun t _ _ => (t, some cErr)
  fitTreeSparse := fun t _ _ => (t, some cErr)
  dfTree := fun _ _ => Except.error cErr
  dfTreeSparse := fun _ _ => Except.error cErr

/-- A concrete two-row training matrix. -/
def cX : DenseArray :=
  ⟨[[1], [2]]⟩

/-- A concrete two-row target vector. -/
def cy : DenseArray :=
  ⟨[[0], [1]]⟩

/-- The same two-row input in the sparse row representation. -/
def cXs : SparseRowArray :=
  ⟨[[1], [2]]⟩

/-- A concrete one-row training matrix. -/
def cX1 : DenseArray :=
  ⟨[[1]]⟩

/-- A concrete one-row target vector. -/
def cy1 : DenseArray :=
  ⟨[[0]]⟩

/-- A concrete zero-row training matrix. -/
def cX0 : DenseArray :=
  ⟨[]⟩

/-- A concrete zero-row sparse training matrix. -/
def cXs0 : SparseRowArray :=
  ⟨[]⟩

/-- A concrete zero-row target vector. -/
def cy0 : DenseArray :=
  ⟨[]⟩

/-- A concrete one-learner forest. -/
def cForest : RandomForest :=
  ⟨[cTree], cRng⟩

/-- A concrete two-learner forest. -/
def cForest2 : RandomForest :=
  ⟨[cTree, cTree], cRng⟩

/-- The learner of `cForest` after a successful training call of `cTm`. -/
def cFitTree : DecisionTree :=
  ⟨cTHP, some []⟩

/-- The post-state of fitting `cForest` with `cTm` on the two-row input:
its one learner trained and the sampling stream advanced by two draws. -/
def cFitForest : RandomForest :=
  ⟨[cFitTree], ⟨fun _ => 0, 2⟩⟩

/-- The 32-byte seed drawn from the constant-zero stream. -/
def cSeed0 : List Nat :=
  List.replicate 32 0

/-- A concrete configuration: one learner over the constant-zero master
stream. -/
def cH : Hyperparameters :=
  ⟨cTHP, 1, cRng⟩

/-- The post-state of fitting `cH.build` with `cTm` on the two-row input. -/
def cHForestFit : RandomForest :=
  ⟨[⟨⟨0, cSeed0⟩, some []⟩], ⟨fun _ => 0, 2⟩⟩

/-- The index list drawn by `bootstrap_indices 3` from the constant-zero
stream. -/
def cIdx3 : List Nat :=
  [0, 0, 0]

/-- The per-learner score list of `cTm` on the two-row input. -/
def cScores : List DenseArray :=
  [DenseArray.zeros 2 1]

/-- Unfolding `sampleList` at a successor count, relying on structure eta. -/
theorem sampleList_succ (low high n : Nat) (r : Rng) :
    sampleList low high (n + 1) r =
      ((low + r.stream r.pos % (high - low)) ::
        (sampleList low high n { r with pos := r.pos + 1 }).1,
       (sampleList low high n { r with pos := r.pos + 1 }).2) :=
  rfl

/-- A `sampleList` draw of `n` values has length `n`. -/
theorem sampleList_length (low high : Nat) : ∀ (n : Nat) (r : Rng),
    (sampleList low high n r).1.length = n
  | 0, _ => rfl
  | n + 1, r => by
    rw [sampleList_succ]
    simp [sampleList_length low high n]

/-- Every value drawn by `sampleList` from a non-empty range `[low, high)`
is below `high`. -/
theorem sampleList_mem (low high : Nat) (hlt : low < high) : ∀ (n : Nat) (r : Rng) (v : Nat),
    v ∈ (sampleList low high n r).1 → v < high
  | 0, _, v => by
    intro hv
    simp [sampleList] at hv
  | n + 1, r, v => by
    rw [sampleList_succ]
    intro hv
    rcases List.mem_cons.mp hv with h | h
    · subst h
      have hm : r.stream r.pos % (high - low) < high - low := Nat.mod_lt _ (by omega)
      omega
    · exact sampleList_mem low high hlt n _ v h

/-- The function `bootstrap_indices` aborts on fewer than two rows. -/
theorem bootstrap_indices_none (n : Nat) (rng : Rng) (h : n ≤ 1) :
    bootstrap_indices n rng = none := by
  interval_cases n <;> rfl

/-- On at least two rows, `bootstrap_indices` draws exactly the uniform
samples from `[0, n - 1)`. -/
theorem bootstrap_indices_some_eq (n : Nat) (rng : Rng) (h : 2 ≤ n) :
    bootstrap_indices n rng = some (sampleList 0 (n - 1) n rng) := by
  simp [bootstrap_indices, uniformNew, show ¬ n = 0 by omega, show 0 < n - 1 by omega]

/-- Inversion for a successful bootstrap draw: the row count was at least
two, the index set has full length, and every index is strictly below
`n - 1`. -/
theorem bootstrap_indices_some_inv (n : Nat) (rng : Rng) (idx : List Nat) (rng1 : Rng)
    (h : bootstrap_indices n rng = some (idx, rng1)) :
    2 ≤ n ∧ idx.length = n ∧ ∀ i ∈ idx, i < n - 1 := by
  by_cases hn : n ≤ 1
  · rw [bootstrap_indices_none n rng hn] at h
    cases h
  · have h2 : 2 ≤ n := by omega
    rw [bootstrap_indices_some_eq n rng h2] at h
    have hi : idx = (sampleList 0 (n - 1) n rng).1 :=
      (congrArg Prod.fst (Option.some.inj h)).symm
    refine ⟨h2, ?_, ?_⟩
    · rw [hi, sampleList_length]
    · intro i him
      rw [hi] at him
      exact sampleList_mem 0 (n - 1) (by omega) n rng i him

/-- The `fit` loop never changes the number of learners. -/
theorem fitLoopG_length (step : DecisionTree → Rng → Option (DecisionTree × Rng × Option String))
    (ts : List DecisionTree) :
    ∀ (rng : Rng) (out : List DecisionTree × Rng × Option String),
      fitLoopG step ts rng = some out → out.1.length = ts.length := by
  induction ts with
  | nil =>
    intro rng out h
    simp only [fitLoopG, Option.some.injEq] at h
    subst h
    rfl
  | cons t ts ih =>
    intro rng out h
    simp only [fitLoopG] at h
    split at h
    · cases h
    · injection h with h2
      subst h2
      rfl
    · split at h
      · cases h
      · next ts1 rng2 res heq =>
        injection h with h2
        subst h2
        have := ih _ (ts1, rng2, res) heq
        simpa using this

/-- When the `fit` loop stops at a failing learner, the learners after the
failing index are left untouched. -/
theorem fitLoopG_err_drop
    (step : DecisionTree → Rng → Option (DecisionTree × Rng × Option String))
    (ts : List DecisionTree) :
    ∀ (rng : Rng) (ts1 : List DecisionTree) (rng1 : Rng) (e : String),
      fitLoopG step ts rng = some (ts1, rng1, some e) →
      ∃ k, k < ts.length ∧ ts1.drop (k + 1) = ts.drop (k + 1) := by
  induction ts with
  | nil =>
    intro rng ts1 rng1 e h
    simp only [fitLoopG, Option.some.injEq, Prod.mk.injEq] at h
    exact absurd h.2.2 (by simp)
  | cons t ts ih =>
    intro rng ts1 rng1 e h
    simp only [fitLoopG] at h
    split at h
    · cases h
    · simp only [Option.some.injEq, Prod.mk.injEq] at h
      obtain ⟨hts, -, -⟩ := h
      refine ⟨0, by simp, ?_⟩
      rw [← hts]
      simp
    · split at h
      · cases h
      · next ts2 rng2 res heq =>
        simp only [Option.some.injEq, Prod.mk.injEq] at h
        obtain ⟨hts, -, hres⟩ := h
        subst hres
        obtain ⟨k, hk, hd⟩ := ih _ ts2 rng2 e heq
        refine ⟨k + 1, by simpa using Nat.succ_lt_succ hk, ?_⟩
        rw [← hts]
        simpa using hd

/-- Characterization of dense `fit` when the loop aborts. -/
theorem fit_eq_none (tm : TreeModel) (f : RandomForest) (X y : DenseArray)
    (hL : fitLoopG (fitStep tm X y) f.trees f.rng = none) :
    RandomForest.fit tm f X y = none := by
  unfold RandomForest.fit
  rw [hL]

/-- Characterization of dense `fit` when every learner trains: the advanced
working stream is committed. -/
theorem fit_eq_ok (tm : TreeModel) (f : RandomForest) (X y : DenseArray)
    (trees1 : List DecisionTree) (rng1 : Rng)
    (hL : fitLoopG (fitStep tm X y) f.trees f.rng = some (trees1, rng1, none)) :
    RandomForest.fit tm f X y = some (⟨trees1, rng1⟩, Except.ok ()) := by
  unfold RandomForest.fit
  rw [hL]

/-- Characterization of dense `fit` when a learner fails: the error is
propagated and the original sampling stream is kept. -/
theorem fit_eq_error (tm : TreeModel) (f : RandomForest) (X y : DenseArray)
    (trees1 : List DecisionTree) (rng1 : Rng) (e : String)
    (hL : fitLoopG (fitStep tm X y) f.trees f.rng = some (trees1, rng1, some e)) :
    RandomForest.fit tm f X y = some (⟨trees1, f.rng⟩, Except.error e) := by
  unfold RandomForest.fit
  rw [hL]

/-- Characterization of sparse `fit` when the loop aborts. -/
theorem fitSparse_eq_none (tm : TreeModel) (f : RandomForest) (Xs : SparseRowArray)
    (y : DenseArray) (hL : fitLoopG (fitStepSparse tm Xs y) f.trees f.rng = none) :
    RandomForest.fitSparse tm f Xs y = none := by
  unfold RandomForest.fitSparse
  rw [hL]

/-- Characterization of sparse `fit` when every learner trains. -/
theorem fitSparse_eq_ok (tm : TreeModel) (f : RandomForest) (Xs : SparseRowArray)
    (y : DenseArray) (trees1 : List DecisionTree) (rng1 : Rng)
    (hL : fitLoopG (fitStepSparse tm Xs y) f.trees f.rng = some (trees1, rng1, none)) :
    RandomForest.fitSparse tm f Xs y = some (⟨trees1, rng1⟩, Except.ok ()) := by
  unfold RandomForest.fitSparse
  rw [hL]

/-- Characterization of sparse `fit` when a learner fails. -/
theorem fitSparse_eq_error (tm : TreeModel) (f : RandomForest) (Xs : SparseRowArray)
    (y : DenseArray) (trees1 : List DecisionTree) (rng1 : Rng) (e : String)
    (hL : fitLoopG (fitStepSparse tm Xs y) f.trees f.rng = some (trees1, rng1, some e)) :
    RandomForest.fitSparse tm f Xs y = some (⟨trees1, f.rng⟩, Except.error e) := by
  unfold RandomForest.fitSparse
  rw [hL]

/-- When each tree's score is available, the accumulation loop computes the
left fold of in-place addition over the scores. -/
theorem dfLoopG_ok (g : DecisionTree → Except String DenseArray) :
    ∀ (trees : List DecisionTree) (scores : List DenseArray) (acc : DenseArray),
      trees.map g = scores.map Except.ok →
      dfLoopG g trees acc = Except.ok (scores.foldl DenseArray.add_inplace acc) := by
  intro trees
  induction trees with
  | nil =>
    intro scores acc h
    have hs : scores = [] := by
      cases scores with
      | nil => rfl
      | cons s ss => simp at h
    subst hs
    rfl
  | cons t ts ih =>
    intro scores acc h
    cases scores with
    | nil => simp at h
    | cons s ss =>
      simp only [List.map_cons, List.cons.injEq] at h
      obtain ⟨h1, h2⟩ := h
      simp only [dfLoopG, h1]
      rw [List.foldl_cons]
      exact ih ss (acc.add_inplace s) h2

/-- Membership in the elementwise matrix addition comes from rows of the two
operands. -/
theorem mem_zipWith_rows (l1 : List (List ℚ)) :
    ∀ (l2 : List (List ℚ)) (r : List ℚ), r ∈ List.zipWith (List.zipWith (· + ·)) l1 l2 →
      ∃ a ∈ l1, ∃ b ∈ l2, r = List.zipWith (· + ·) a b := by
  induction l1 with
  | nil => simp
  | cons a l1 ih =>
    intro l2 r hr
    cases l2 with
    | nil => simp at hr
    | cons b l2 =>
      rcases List.mem_cons.mp hr with h | h
      · exact ⟨a, by simp, b, by simp, h⟩
      · obtain ⟨x, hx, y, hy, rfl⟩ := ih l2 r h
        exact ⟨x, by simp [hx], y, by simp [hy], rfl⟩

/-- The zero buffer is a `(rows x 1)` column. -/
theorem zeros_isColumn (r : Nat) : IsColumn r (DenseArray.zeros r 1) := by
  constructor
  · simp [DenseArray.zeros]
  · intro row hrow
    simp only [DenseArray.zeros, List.mem_replicate] at hrow
    rw [hrow.2]
    simp

/-- In-place addition of two `(rows x 1)` columns is a `(rows x 1)`
column. -/
theorem add_inplace_isColumn (rows : Nat) (A B : DenseArray)
    (hA : IsColumn rows A) (hB : IsColumn rows B) :
    IsColumn rows (A.add_inplace B) := by
  obtain ⟨hA1, hA2⟩ := hA
  obtain ⟨hB1, hB2⟩ := hB
  constructor
  · simp [DenseArray.add_inplace, hA1, hB1]
  · intro row hrow
    obtain ⟨a, ha, b, hb, rfl⟩ := mem_zipWith_rows A.data B.data row hrow
    simp [hA2 a ha, hB2 b hb]

/-- In-place scalar division preserves the `(rows x 1)` column shape. -/
theorem div_inplace_isColumn (rows : Nat) (A : DenseArray) (s : ℚ)
    (hA : IsColumn rows A) : IsColumn rows (A.div_inplace s) := by
  obtain ⟨h1, h2⟩ := hA
  constructor
  · simp [DenseArray.div_inplace, h1]
  · intro row hrow
    simp only [DenseArray.div_inplace, List.mem_map] at hrow
    obtain ⟨a, ha, rfl⟩ := hrow
    simp [h2 a ha]

/-- Accumulating `(rows x 1)` columns over a `(rows x 1)` buffer keeps the
shape. -/
theorem foldl_add_isColumn (rows : Nat) :
    ∀ (scores : List DenseArray) (acc : DenseArray), IsColumn rows acc →
      (∀ s ∈ scores, IsColumn rows s) →
      IsColumn rows (scores.foldl DenseArray.add_inplace acc)
  | [], _, hacc, _ => hacc
  | s :: ss, acc, hacc, hs => by
    rw [List.foldl_cons]
    exact foldl_add_isColumn rows ss (acc.add_inplace s)
      (add_inplace_isColumn rows acc s hacc (hs s (by simp)))
      (fun x hx => hs x (by simp [hx]))

/-- Unfolding `buildTrees` at a successor count, relying on structure eta. -/
theorem buildTrees_succ (hp : TreeHyperparameters) (n : Nat) (rng : Rng) :
    buildTrees hp (n + 1) rng =
      ((hp.setSeed (drawSeed rng).1).build :: (buildTrees hp n (drawSeed rng).2).1,
       (buildTrees hp n (drawSeed rng).2).2) :=
  rfl

/-- The loop `buildTrees` produces exactly the requested number of learners. -/
theorem buildTrees_length (hp : TreeHyperparameters) :
    ∀ (n : Nat) (rng : Rng), (buildTrees hp n rng).1.length = n
  | 0, _ => rfl
  | n + 1, rng => by
    rw [buildTrees_succ]
    simp [buildTrees_length hp n]

/-- The learner list of `buildTrees` at a successor count. -/
theorem buildTrees_fst (hp : TreeHyperparameters) (n : Nat) (rng : Rng) :
    (buildTrees hp (n + 1) rng).1 =
      (hp.setSeed (drawSeed rng).1).build :: (buildTrees hp n (drawSeed rng).2).1 :=
  rfl

/-- The i-th learner built by `buildTrees` carries the i-th successively
drawn 32-byte seed. -/
theorem buildTrees_get (hp : TreeHyperparameters) :
    ∀ (n i : Nat) (rng : Rng), i < n →
      (buildTrees hp n rng).1[i]? = some ((hp.setSeed (nthSeed rng i)).build)
  | 0, i, _, h => by omega
  | n + 1, 0, rng, _ => by
    rw [buildTrees_fst, List.getElem?_cons_zero]
    rfl
  | n + 1, i + 1, rng, h => by
    rw [buildTrees_fst, List.getElem?_cons_succ]
    exact buildTrees_get hp n i (drawSeed rng).2 (by omega)

/-- Every successively drawn per-learner seed has exactly 32 bytes. -/
theorem nthSeed_length : ∀ (i : Nat) (rng : Rng), (nthSeed rng i).length = 32
  | 0, rng => sampleList_length 0 255 32 rng
  | i + 1, rng => nthSeed_length i (drawSeed rng).2

/-- Every byte of every successively drawn per-learner seed lies in
`[0, 255)`. -/
theorem nthSeed_mem : ∀ (i : Nat) (rng : Rng) (b : Nat), b ∈ nthSeed rng i → b < 255
  | 0, rng, b => fun h => sampleList_mem 0 255 (by omega) 32 rng b h
  | i + 1, rng, b => nthSeed_mem i (drawSeed rng).2 b

/-- C1: the claim states that each learner's bootstrap index set has length
exactly `X.rows()` and that its entries are drawn uniformly from
`[0, rows)`, every index in `[0, row_count)` being a possible draw.  The
length part holds, but the code builds `Uniform::new(0, num_indices - 1)`
with an exclusive upper bound: on one row the empty range `[0, 0)` makes
sampling abort, and on two or more rows every drawn index is strictly below
`rows - 1`, so the last row index is never a possible draw.  This theorem
evaluates the code at the failing inputs. -/
theorem bootstrap_draw_range_bug :
    (∀ rng : Rng, bootstrap_indices 1 rng = none) ∧
    (∀ (n : Nat) (rng : Rng) (idx : List Nat) (rng1 : Rng),
      bootstrap_indices n rng = some (idx, rng1) →
      idx.length = n ∧ ∀ i ∈ idx, i < n - 1) := by
  constructor
  · intro rng
    exact bootstrap_indices_none 1 rng (by omega)
  · intro n rng idx rng1 h
    obtain ⟨-, h2, h3⟩ := bootstrap_indices_some_inv n rng idx rng1 h
    exact ⟨h2, h3⟩

/-- Witness for C1 at one row and at three rows with the constant-zero
stream. -/
theorem bootstrap_draw_range_bug_witness :
    bootstrap_indices 1 cRng = none ∧ cIdx3.length = 3 ∧ (0 : Nat) < 3 - 1 := by
  have h2 := bootstrap_draw_range_bug.2 3 cRng cIdx3 cRng3 (by rfl)
  exact ⟨bootstrap_draw_range_bug.1 cRng, h2.1, h2.2 0 (by decide)⟩

/-- C2: the claim states that fitting a forest with at least one learner on
a zero-row matrix is surfaced to the caller as an explicit error result,
not a panic.  In the code, `bootstrap_indices(0, ..)` aborts (the `usize`
subtraction `num_indices - 1` underflows), so `fit` on zero rows aborts on
both the dense and the sparse path and no error result is ever returned.
This theorem evaluates the code at the failing input. -/
theorem fit_zero_rows_aborts (tm : TreeModel) (f : RandomForest) (X : DenseArray)
    (Xs : SparseRowArray) (y : DenseArray) (hne : f.trees ≠ [])
    (hX : X.rows = 0) (hXs : Xs.rows = 0) :
    RandomForest.fit tm f X y = none ∧ RandomForest.fitSparse tm f Xs y = none := by
  obtain ⟨trees, rng⟩ := f
  cases trees with
  | nil => simp at hne
  | cons t ts =>
    have hb : bootstrap_indices X.rows rng = none :=
      bootstrap_indices_none X.rows rng (by omega)
    have hbs : bootstrap_indices Xs.rows rng = none :=
      bootstrap_indices_none Xs.rows rng (by omega)
    constructor
    · apply fit_eq_none
      simp only [fitLoopG, fitStep, hb]
    · apply fitSparse_eq_none
      simp only [fitLoopG, fitStepSparse, hbs]

/-- Witness for C2: a one-learner forest on concrete zero-row inputs. -/
theorem fit_zero_rows_aborts_witness :
    RandomForest.fit cTm cForest cX0 cy0 = none ∧
    RandomForest.fitSparse cTm cForest cXs0 cy0 = none :=
  fit_zero_rows_aborts cTm cForest cX0 cXs0 cy0 (List.cons_ne_nil _ _) rfl rfl

/-- C10: fitting a forest with at least one learner on a one-row matrix
does not return normally — the draw range `[0, 1 - 1) = [0, 0)` makes the
bootstrap sampler abort even though the population is non-empty — and for
any row count every drawn index is strictly below `rows - 1`, so the index
`rows - 1` is never drawn. -/
theorem fit_one_row_aborts :
    (∀ (tm : TreeModel) (f : RandomForest) (X y : DenseArray),
      f.trees ≠ [] → X.rows = 1 → RandomForest.fit tm f X y = none) ∧
    (∀ (n : Nat) (rng : Rng) (idx : List Nat) (rng1 : Rng),
      bootstrap_indices n rng = some (idx, rng1) → ∀ i ∈ idx, i < n - 1) := by
  constructor
  · intro tm f X y hne hX
    obtain ⟨trees, rng⟩ := f
    cases trees with
    | nil => simp at hne
    | cons t ts =>
      have hb : bootstrap_indices X.rows rng = none :=
        bootstrap_indices_none X.rows rng (by omega)
      apply fit_eq_none
      simp only [fitLoopG, fitStep, hb]
  · intro n rng idx rng1 h
    exact (bootstrap_indices_some_inv n rng idx rng1 h).2.2

/-- Witness for C10: a one-learner forest on a concrete one-row input, and
a concrete three-row draw whose entries stay below `3 - 1`. -/
theorem fit_one_row_aborts_witness :
    RandomForest.fit cTm cForest cX1 cy1 = none ∧ (0 : Nat) < 3 - 1 := by
  refine ⟨fit_one_row_aborts.1 cTm cForest cX1 cy1 (List.cons_ne_nil _ _) rfl, ?_⟩
  exact fit_one_row_aborts.2 3 cRng cIdx3 cRng3 (by rfl) 0 (by decide)

/-- C3: advance-and-commit for `fit` on both representations.  When every
learner trains, the committed forest holds exactly the tree list and the
advanced working stream produced by the per-learner loop; when some
learner's fit fails, the failure is propagated as the forest's own error,
the learners after the failing index are left untouched, and the forest's
sampling stream is exactly the one it held before the call. -/
theorem fit_advance_and_commit (tm : TreeModel) (f : RandomForest) (X : DenseArray)
    (Xs : SparseRowArray) (y : DenseArray) :
    (∀ f1 e, RandomForest.fit tm f X y = some (f1, Except.error e) →
      f1.rng = f.rng ∧
        ∃ k, k < f.trees.length ∧ f1.trees.drop (k + 1) = f.trees.drop (k + 1)) ∧
    (∀ f1, RandomForest.fit tm f X y = some (f1, Except.ok ()) →
      fitLoopG (fitStep tm X y) f.trees f.rng = some (f1.trees, f1.rng, none)) ∧
    (∀ f1 e, RandomForest.fitSparse tm f Xs y = some (f1, Except.error e) →
      f1.rng = f.rng ∧
        ∃ k, k < f.trees.length ∧ f1.trees.drop (k + 1) = f.trees.drop (k + 1)) ∧
    (∀ f1, RandomForest.fitSparse tm f Xs y = some (f1, Except.ok ()) →
      fitLoopG (fitStepSparse tm Xs y) f.trees f.rng = some (f1.trees, f1.rng, none)) := by
  refine ⟨?_, ?_, ?_, ?_⟩
  · intro f1 e h
    cases hL : fitLoopG (fitStep tm X y) f.trees f.rng with
    | none =>
      rw [fit_eq_none tm f X y hL] at h
      cases h
    | some o =>
      obtain ⟨trees1, rng1, res⟩ := o
      cases res with
      | none =>
        rw [fit_eq_ok tm f X y trees1 rng1 hL] at h
        simp at h
      | some e2 =>
        rw [fit_eq_error tm f X y trees1 rng1 e2 hL] at h
        simp only [Option.some.injEq, Prod.mk.injEq] at h
        obtain ⟨hf, -⟩ := h
        subst hf
        exact ⟨rfl, fitLoopG_err_drop (fitStep tm X y) f.trees f.rng trees1 rng1 e2 hL⟩
  · intro f1 h
    cases hL : fitLoopG (fitStep tm X y) f.trees f.rng with
    | none =>
      rw [fit_eq_none tm f X y hL] at h
      cases h
    | some o =>
      obtain ⟨trees1, rng1, res⟩ := o
      cases res with
      | some e2 =>
        rw [fit_eq_error tm f X y trees1 rng1 e2 hL] at h
        simp at h
      | none =>
        rw [fit_eq_ok tm f X y trees1 rng1 hL] at h
        simp only [Option.some.injEq, Prod.mk.injEq] at h
        obtain ⟨hf, -⟩ := h
        subst hf
        rfl
  · intro f1 e h
    cases hL : fitLoopG (fitStepSparse tm Xs y) f.trees f.rng with
    | none =>
      rw [fitSparse_eq_none tm f Xs y hL] at h
      cases h
    | some o =>
      obtain ⟨trees1, rng1, res⟩ := o
      cases res with
      | none =>
        rw [fitSparse_eq_ok tm f Xs y trees1 rng1 hL] at h
        simp at h
      | some e2 =>
        rw [fitSparse_eq_error tm f Xs y trees1 rng1 e2 hL] at h
        simp only [Option.some.injEq, Prod.mk.injEq] at h
        obtain ⟨hf, -⟩ := h
        subst hf
        exact ⟨rfl, fitLoopG_err_drop (fitStepSparse tm Xs y) f.trees f.rng trees1 rng1 e2 hL⟩
  · intro f1 h
    cases hL : fitLoopG (fitStepSparse tm Xs y) f.trees f.rng with
    | none =>
      rw [fitSparse_eq_none tm f Xs y hL] at h
      cases h
    | some o =>
      obtain ⟨trees1, rng1, res⟩ := o
      cases res with
      | some e2 =>
        rw [fitSparse_eq_error tm f Xs y trees1 rng1 e2 hL] at h
        simp at h
      | none =>
        rw [fitSparse_eq_ok tm f Xs y trees1 rng1 hL] at h
        simp only [Option.some.injEq, Prod.mk.injEq] at h
        obtain ⟨hf, -⟩ := h
        subst hf
        rfl

/-- Witness for C3: a failing two-learner fit keeps the sampling stream and
the untrained learners, and a succeeding one-learner fit commits exactly
the loop's advanced stream. -/
theorem fit_advance_and_commit_witness :
    (cForest2.rng = cForest2.rng ∧
      ∃ k, k < cForest2.trees.length ∧
        cForest2.trees.drop (k + 1) = cForest2.trees.drop (k + 1)) ∧
    fitLoopG (fitStep cTm cX cy) cForest.trees cForest.rng =
      some (cFitForest.trees, cFitForest.rng, none) := by
  refine ⟨(fit_advance_and_commit cTmFail cForest2 cX cXs cy).1 cForest2 cErr (by rfl), ?_⟩
  exact (fit_advance_and_commit cTm cForest cX cXs cy).2.1 cFitForest (by rfl)

/-- C8: the learner sequence has length exactly the configured forest size
after `build`, and both fit paths (successful or failed) leave that length
unchanged.  `decision_function` takes the forest immutably (Rust `&self`)
and is embedded as a pure function returning only the score matrix, so it
cannot change the learner count on either representation. -/
theorem learner_count_invariant :
    (∀ h : Hyperparameters, h.build.trees.length = h.num_trees) ∧
    (∀ (tm : TreeModel) (f : RandomForest) (X y : DenseArray)
        (out : RandomForest × Except String Unit),
      RandomForest.fit tm f X y = some out → out.1.trees.length = f.trees.length) ∧
    (∀ (tm : TreeModel) (f : RandomForest) (Xs : SparseRowArray) (y : DenseArray)
        (out : RandomForest × Except String Unit),
      RandomForest.fitSparse tm f Xs y = some out → out.1.trees.length = f.trees.length) := by
  refine ⟨fun h => buildTrees_length h.tree_hyperparameters h.num_trees h.rng, ?_, ?_⟩
  · intro tm f X y out h
    cases hL : fitLoopG (fitStep tm X y) f.trees f.rng with
    | none =>
      rw [fit_eq_none tm f X y hL] at h
      cases h
    | some o =>
      obtain ⟨trees1, rng1, res⟩ := o
      have hlen := fitLoopG_length (fitStep tm X y) f.trees f.rng (trees1, rng1, res) hL
      cases res with
      | none =>
        rw [fit_eq_ok tm f X y trees1 rng1 hL] at h
        obtain rfl := Option.some.inj h
        exact hlen
      | some e =>
        rw [fit_eq_error tm f X y trees1 rng1 e hL] at h
        obtain rfl := Option.some.inj h
        exact hlen
  · intro tm f Xs y out h
    cases hL : fitLoopG (fitStepSparse tm Xs y) f.trees f.rng with
    | none =>
      rw [fitSparse_eq_none tm f Xs y hL] at h
      cases h
    | some o =>
      obtain ⟨trees1, rng1, res⟩ := o
      have hlen := fitLoopG_length (fitStepSparse tm Xs y) f.trees f.rng (trees1, rng1, res) hL
      cases res with
      | none =>
        rw [fitSparse_eq_ok tm f Xs y trees1 rng1 hL] at h
        obtain rfl := Option.some.inj h
        exact hlen
      | some e =>
        rw [fitSparse_eq_error tm f Xs y trees1 rng1 e hL] at h
        obtain rfl := Option.some.inj h
        exact hlen

/-- Witness for C8: the concrete one-learner configuration and a concrete
successful fit. -/
theorem learner_count_invariant_witness :
    cH.build.trees.length = cH.num_trees ∧
    cFitForest.trees.length = cForest.trees.length := by
  refine ⟨learner_count_invariant.1 cH, ?_⟩
  exact learner_count_invariant.2.1 cTm cForest cX cy (cFitForest, Except.ok ()) (by rfl)

/-- C4: on any input where every learner's decision function succeeds with
a `(rows x 1)` score (the base-learner contract), `decision_function`
returns a `(rows x 1)` score matrix equal to the elementwise mean of the
individual learners' scores — the zero buffer accumulated in place in
learner order, then divided by the learner count — on the dense and the
sparse path alike. -/
theorem decision_function_is_mean (tm : TreeModel) (f : RandomForest) (X : DenseArray)
    (Xs : SparseRowArray) (scores scoresS : List DenseArray)
    (hok : f.trees.map (fun t => tm.dfTree t X) = scores.map Except.ok)
    (hshape : ∀ s ∈ scores, IsColumn X.rows s)
    (hokS : f.trees.map (fun t => tm.dfTreeSparse t (SparseColumnArray.fromRows Xs)) =
      scoresS.map Except.ok)
    (hshapeS : ∀ s ∈ scoresS, IsColumn Xs.rows s) :
    (RandomForest.decision_function tm f X = Except.ok (elementwiseMean X.rows scores) ∧
      IsColumn X.rows (elementwiseMean X.rows scores)) ∧
    (RandomForest.decision_functionSparse tm f Xs =
        Except.ok (elementwiseMean Xs.rows scoresS) ∧
      IsColumn Xs.rows (elementwiseMean Xs.rows scoresS)) := by
  have hlen : f.trees.length = scores.length := by
    have := congrArg List.length hok
    simpa using this
  have hlenS : f.trees.length = scoresS.length := by
    have := congrArg List.length hokS
    simpa using this
  have hdf := dfLoopG_ok (fun t => tm.dfTree t X) f.trees scores
    (DenseArray.zeros X.rows 1) hok
  have hdfS := dfLoopG_ok (fun t => tm.dfTreeSparse t (SparseColumnArray.fromRows Xs))
    f.trees scoresS (DenseArray.zeros Xs.rows 1) hokS
  refine ⟨⟨?_, ?_⟩, ?_, ?_⟩
  · calc RandomForest.decision_function tm f X
        = Except.ok ((scores.foldl DenseArray.add_inplace
            (DenseArray.zeros X.rows 1)).div_inplace ((f.trees.length : ℚ))) := by
          unfold RandomForest.decision_function
          rw [hdf]
      _ = Except.ok (elementwiseMean X.rows scores) := by
          unfold elementwiseMean
          rw [hlen]
  · exact div_inplace_isColumn X.rows _ _
      (foldl_add_isColumn X.rows scores (DenseArray.zeros X.rows 1)
        (zeros_isColumn X.rows) hshape)
  · calc RandomForest.decision_functionSparse tm f Xs
        = Except.ok ((scoresS.foldl DenseArray.add_inplace
            (DenseArray.zeros Xs.rows 1)).div_inplace ((f.trees.length : ℚ))) := by
          unfold RandomForest.decision_functionSparse
          rw [hdfS]
      _ = Except.ok (elementwiseMean Xs.rows scoresS) := by
          unfold elementwiseMean
          rw [hlenS]
  · exact div_inplace_isColumn Xs.rows _ _
      (foldl_add_isColumn Xs.rows scoresS (DenseArray.zeros Xs.rows 1)
        (zeros_isColumn Xs.rows) hshapeS)

/-- Witness for C4: the concrete one-learner forest on the two-row input,
whose learner scores are the zero column. -/
theorem decision_function_is_mean_witness :
    RandomForest.decision_function cTm cForest cX =
      Except.ok (elementwiseMean cX.rows cScores) ∧
    IsColumn cX.rows (elementwiseMean cX.rows cScores) ∧
    RandomForest.decision_functionSparse cTm cForest cXs =
      Except.ok (elementwiseMean cXs.rows cScores) := by
  have hcol : ∀ s ∈ cScores, IsColumn 2 s := by
    intro s hs
    rw [List.mem_singleton.mp hs]
    exact zeros_isColumn 2
  have h := decision_function_is_mean cTm cForest cX cXs cScores cScores (by rfl)
    hcol (by rfl) hcol
  exact ⟨h.1.1, h.1.2, h.2.1⟩

/-- C5: for every configuration and every forest size, the forest returned
by `build` holds a sampling stream equal to the unaltered master stream at
call time — the per-learner seed draws happen on a separate clone — so the
sampling stream is independent of the forest size; and since `build` is a
pure function of the configuration alone, later bootstrap sampling cannot
perturb seed derivation either. -/
theorem build_stream_unaltered (thp : TreeHyperparameters) (n m : Nat) (r : Rng) :
    (Hyperparameters.mk thp n r).build.rng = r ∧
    (Hyperparameters.mk thp n r).build.rng = (Hyperparameters.mk thp m r).build.rng :=
  ⟨rfl, rfl⟩

/-- C6: two configurations holding an identical master stream state and
identical hyperparameters build equal forests, fitting both on identical
data gives identical outcomes, and on success the trained forests are
equal with identical predictions on any identical input — in the
embedding, `build`, `fit` and `decision_function` are functions of their
declared inputs only, so no hidden nondeterministic input can influence
them. -/
theorem forest_determinism (tm : TreeModel) (h1 h2 : Hyperparameters) (X y Z : DenseArray)
    (hthp : h1.tree_hyperparameters = h2.tree_hyperparameters)
    (hn : h1.num_trees = h2.num_trees) (hrng : h1.rng = h2.rng) :
    h1.build = h2.build ∧
    RandomForest.fit tm h1.build X y = RandomForest.fit tm h2.build X y ∧
    ∀ f1 f2, RandomForest.fit tm h1.build X y = some (f1, Except.ok ()) →
      RandomForest.fit tm h2.build X y = some (f2, Except.ok ()) →
      f1 = f2 ∧ RandomForest.decision_function tm f1 Z =
        RandomForest.decision_function tm f2 Z := by
  obtain ⟨a1, b1, c1⟩ := h1
  obtain ⟨a2, b2, c2⟩ := h2
  cases hthp
  cases hn
  cases hrng
  refine ⟨rfl, rfl, ?_⟩
  intro f1 f2 hf1 hf2
  rw [hf1] at hf2
  have hf : f1 = f2 := by
    simpa using hf2
  subst hf
  exact ⟨rfl, rfl⟩

/-- Witness for C6: the concrete configuration compared with itself, and
its concrete successful fit. -/
theorem forest_determinism_witness :
    cH.build = cH.build ∧
    RandomForest.fit cTm cH.build cX cy = RandomForest.fit cTm cH.build cX cy ∧
    cHForestFit = cHForestFit ∧
    RandomForest.decision_function cTm cHForestFit cX =
      RandomForest.decision_function cTm cHForestFit cX := by
  have h := forest_determinism cTm cH cH cX cy cX rfl rfl rfl
  have h3 := h.2.2 cHForestFit cHForestFit (by rfl) (by rfl)
  exact ⟨h.1, h.2.1, h3.1, h3.2⟩

/-- C7: at build time the i-th learner receives a 32-byte seed whose bytes
are drawn one after another from the master stream (the 32 draws for
learner i come right after those for learners 0 to i-1), and every byte
lies in `[0, 255)` — the value 255 is never drawn, since the code samples
`Uniform::new(0, u8::MAX)` with an exclusive bound — giving each learner a
fresh reseed instead of leaving the learners byte-identical clones. -/
theorem per_learner_seed_bytes (h : Hyperparameters) (i : Nat) (hi : i < h.num_trees) :
    h.build.trees[i]? = some ((h.tree_hyperparameters.setSeed (nthSeed h.rng i)).build) ∧
    (nthSeed h.rng i).length = 32 ∧ ∀ b ∈ nthSeed h.rng i, b < 255 :=
  ⟨buildTrees_get h.tree_hyperparameters h.num_trees i h.rng hi,
   nthSeed_length i h.rng, fun b hb => nthSeed_mem i h.rng b hb⟩

/-- Witness for C7: the first learner of the concrete one-learner
configuration. -/
theorem per_learner_seed_bytes_witness :
    cH.build.trees[0]? =
      some ((cH.tree_hyperparameters.setSeed (nthSeed cH.rng 0)).build) ∧
    (nthSeed cH.rng 0).length = 32 ∧ (0 : Nat) < 255 := by
  have h := per_learner_seed_bytes cH 0 (by decide)
  exact ⟨h.1, h.2.1, h.2.2 0 (by decide)⟩

/-- C9: prediction neither reads nor advances the forest's sampling
stream: on both representations the value of `decision_function` is
independent of the stream the forest holds, and the operation is embedded
as a pure function of the forest and the input returning only the score
matrix — the Rust receiver is an immutable borrow, so the forest state
(learners and stream) is left unchanged, and only the fit path mutates the
sampling stream. -/
theorem decision_function_ignores_rng (tm : TreeModel) (trees : List DecisionTree)
    (r1 r2 : Rng) (X : DenseArray) (Xs : SparseRowArray) :
    RandomForest.decision_function tm ⟨trees, r1⟩ X =
      RandomForest.decision_function tm ⟨trees, r2⟩ X ∧
    RandomForest.decision_functionSparse tm ⟨trees, r1⟩ Xs =
      RandomForest.decision_functionSparse tm ⟨trees, r2⟩ Xs :=
  ⟨rfl, rfl⟩
